import Mathlib

/-!
Shallow embedding of the task-distribution core of the AIDashboard
repository (`agent_task_system.py`): the SQLite-backed store
(`AgentTaskDatabase`) and the assignment layer (`TaskDistributor`).

Modelling conventions:
* The two relevant tables `agent_tasks` and `agents` are lists of rows in
  insertion (rowid) order; SQL `UPDATE ... WHERE id = ?` maps over all rows
  with that id, scalar subqueries and Python `fetchone()` take the first
  matching row (`List.find?`).
* Timestamps (`CURRENT_TIMESTAMP`, `datetime.now().isoformat()`) are modelled
  as integer seconds, passed in as an explicit `now` argument; ISO strings of
  a fixed format compare chronologically, so `Int` comparison is faithful to
  `ORDER BY assigned_at`.
* Python exceptions (`TypeError` on subscripting a missing `fetchone()` row,
  `ValueError` raised/caught around `get_agent_workload`) are modelled with
  `Except String` / `Option`.
* Python `timedelta.seconds` is the seconds *component* of the normalised
  timedelta, i.e. the floored total seconds modulo 86400 — not the total
  elapsed seconds.  For integer-second timestamps this is `Int.emod _ 86400`.
* SQL REAL columns (`progress`, `average_response_time`) carry only values
  that are stored and compared, never combined arithmetically, so they are
  modelled as `Rat`.
-/

namespace AIDashboard

/-- Row of the `agent_tasks` table; same fields as the `AgentTask` dataclass. -/
structure AgentTask where
  id : String
  agent_id : String
  title : String
  description : String
  priority : Int
  status : String
  progress : Rat
  assigned_at : Int
  started_at : Option Int
  completed_at : Option Int
  estimated_duration : Int
  actual_duration : Option Int
  dependencies : List String
  result : Option String
  error_message : Option String
  created_by : String
  last_updated : Int
  deriving DecidableEq

/-- Row of the `agents` table. -/
structure AgentRow where
  id : String
  name : String
  nickname : String
  title : String
  model : String
  status : String
  max_concurrent_tasks : Int
  active_tasks : Int
  completed_tasks : Int
  failed_tasks : Int
  total_task_time : Int
  average_response_time : Rat
  last_heartbeat : Option Int
  created_at : Int
  updated_at : Int
  deriving DecidableEq

/-- The store: the two tables of `AgentTaskDatabase` used by the task core. -/
structure DB where
  agents : List AgentRow
  tasks : List AgentTask
  deriving DecidableEq

def emptyDB : DB := { agents := [], tasks := [] }

/-- First `agents` row with the given id (`SELECT ... FROM agents WHERE id = ?`
with `fetchone()`). -/
def DB.findAgent (db : DB) (aid : String) : Option AgentRow :=
  db.agents.find? (fun a => a.id == aid)

/-- First `agent_tasks` row with the given id. -/
def DB.findTask (db : DB) (tid : String) : Option AgentTask :=
  db.tasks.find? (fun t => t.id == tid)

/-- `Config.MAX_CONCURRENT_TASKS_PER_AGENT`. -/
def MAX_CONCURRENT_TASKS_PER_AGENT : Int := 3

/-- The fields of an agent-config dictionary read by `add_agent`
(`.get` with a default is modelled by `Option`). -/
structure AgentConfig where
  id : String
  name : Option String
  nickname : Option String
  title : Option String
  model : Option String
  deriving DecidableEq

/-- `AgentTaskDatabase.add_agent`: `INSERT OR REPLACE INTO agents` listing only
`(id, name, nickname, title, model, max_concurrent_tasks)`.  SQLite REPLACE
deletes any existing row with the same primary key and inserts a fresh row, so
every unlisted column takes its column default
(`status 'available'`, counters `0`, `last_heartbeat NULL`,
`created_at`/`updated_at CURRENT_TIMESTAMP`). -/
def add_agent (db : DB) (cfg : AgentConfig) (now : Int) : DB :=
  let newRow : AgentRow :=
    { id := cfg.id
      name := cfg.name.getD cfg.id
      nickname := cfg.nickname.getD ""
      title := cfg.title.getD ""
      model := cfg.model.getD ""
      status := "available"
      max_concurrent_tasks := MAX_CONCURRENT_TASKS_PER_AGENT
      active_tasks := 0
      completed_tasks := 0
      failed_tasks := 0
      total_task_time := 0
      average_response_time := 0
      last_heartbeat := none
      created_at := now
      updated_at := now }
  { db with agents := db.agents.filter (fun a => !(a.id == cfg.id)) ++ [newRow] }

/-- `AgentTaskDatabase.create_task`: `INSERT INTO agent_tasks` listing
`(id, agent_id, title, description, priority, status, estimated_duration,
dependencies, created_by, assigned_at, last_updated)`; the remaining columns
take their defaults (`progress 0.0`, NULL timestamps/results).  Then the
owning agent's `last_heartbeat` is set to the current time. -/
def create_task (db : DB) (t : AgentTask) (now : Int) : DB :=
  let row : AgentTask :=
    { id := t.id, agent_id := t.agent_id, title := t.title
      description := t.description, priority := t.priority, status := t.status
      progress := 0, assigned_at := t.assigned_at, started_at := none
      completed_at := none, estimated_duration := t.estimated_duration
      actual_duration := none, dependencies := t.dependencies
      result := none, error_message := none, created_by := t.created_by
      last_updated := t.last_updated }
  { agents := db.agents.map (fun a =>
      if a.id == t.agent_id then { a with last_heartbeat := some now } else a)
    tasks := db.tasks ++ [row] }

/-- Is the task counted as active (`status IN ('assigned', 'working')`)? -/
def isActiveStatus (s : String) : Bool :=
  s == "assigned" || s == "working"

/-- `SELECT COUNT(*) FROM agent_tasks WHERE agent_id = ? AND status IN
('assigned', 'working')`: the live active count used by `get_next_task`. -/
def liveActiveCount (db : DB) (aid : String) : Nat :=
  (db.tasks.filter (fun t => t.agent_id == aid && isActiveStatus t.status)).length

/-- Strict ordering used by `ORDER BY priority, assigned_at`:
lexicographic on (priority ascending, assigned_at ascending). -/
def pendingLt (a b : AgentTask) : Bool :=
  decide (a.priority < b.priority) ||
    (decide (a.priority = b.priority) && decide (a.assigned_at < b.assigned_at))

/-- `ORDER BY priority, assigned_at LIMIT 1` over a scan: the first row
minimal for `pendingLt` (SQLite leaves the relative order of rows with fully
equal keys unspecified; the model resolves such ties by row order). -/
def selectMin : List AgentTask → Option AgentTask
  | [] => none
  | t :: ts =>
    match selectMin ts with
    | none => some t
    | some u =>
      match pendingLt u t with
      | true => some u
      | false => some t

/-- The pending tasks of an agent
(`WHERE agent_id = ? AND status = 'pending'`). -/
def pendingFor (db : DB) (aid : String) : List AgentTask :=
  db.tasks.filter (fun t => t.agent_id == aid && t.status == "pending")

/-- Error message standing for the Python `TypeError` raised when
`cursor.fetchone()` returns `None` and the code subscripts it. -/
def noneSubscriptErr : String := "TypeError: NoneType is not subscriptable"

/-- `AgentTaskDatabase.get_next_task`.  Counts the agent's live active tasks,
reads `max_concurrent_tasks` (subscripting the missing row raises for an
unknown agent), returns `none` at capacity, otherwise takes the first pending
task in `(priority, assigned_at)` order, marks it `assigned`, and writes
`active_tasks = live count + 1` on the agent row.  The Python code then
rebuilds an `AgentTask` dataclass from the selected row (with its well-known
off-by-one field indexing slip, `progress=row[5]` onward); the model returns
the selected task's id, which is the `row[0]` the dataclass carries. -/
def get_next_task (db : DB) (agent_id : String) (now : Int) :
    Except String (Option String × DB) :=
  let active_count := liveActiveCount db agent_id
  match db.findAgent agent_id with
  | none => .error noneSubscriptErr
  | some a =>
    if (active_count : Int) ≥ a.max_concurrent_tasks then
      .ok (none, db)
    else
      match selectMin (pendingFor db agent_id) with
      | none => .ok (none, db)
      | some row =>
        let tasks := db.tasks.map (fun t =>
          if t.id == row.id then { t with status := "assigned", last_updated := now } else t)
        let agents := db.agents.map (fun ag =>
          if ag.id == agent_id then
            { ag with active_tasks := (active_count : Int) + 1, updated_at := now }
          else ag)
        .ok (some row.id, { agents := agents, tasks := tasks })

/-- The per-task column updates assembled by
`AgentTaskDatabase.update_task_status`: status and `last_updated` always;
`progress`/`result` when passed; `started_at` whenever the new status is
`'working'`; `completed_at` and `actual_duration` on a terminal status. -/
def applyTaskUpdates (t : AgentTask) (status : String) (progress : Option Rat)
    (result : Option String) (duration : Option Int) (now : Int) : AgentTask :=
  let t1 := { t with status := status, last_updated := now }
  let t2 := match progress with
    | some p => { t1 with progress := p }
    | none => t1
  let t3 := match result with
    | some r => { t2 with result := r }
    | none => t2
  let t4 := if status == "working" then { t3 with started_at := some now } else t3
  if status == "completed" || status == "failed" then
    { t4 with completed_at := some now, actual_duration := duration }
  else t4

/-- Python `(datetime.now() - datetime.fromisoformat(assigned_at)).seconds`:
the seconds component of the timedelta, i.e. the elapsed seconds modulo
86400 (floored), not the total elapsed seconds. -/
def pyDeltaSeconds (now assigned : Int) : Int :=
  (now - assigned).emod 86400

/-- `AgentTaskDatabase.update_task_status`.  For a terminal status it first
reads the task's `assigned_at` (raising when the task row is missing),
computes the duration via the timedelta `seconds` component, and increments
the owning agent's `completed_tasks`/`failed_tasks` and `total_task_time`;
finally the task row itself is updated.  There is no guard on the task's
current status. -/
def update_task_status (db : DB) (task_id : String) (status : String)
    (progress : Option Rat) (result : Option String) (now : Int) :
    Except String DB :=
  if status == "completed" || status == "failed" then
    match db.findTask task_id with
    | none => .error noneSubscriptErr
    | some trow =>
      let duration := pyDeltaSeconds now trow.assigned_at
      let agents := db.agents.map (fun a =>
        if a.id == trow.agent_id then
          if status == "completed" then
            { a with completed_tasks := a.completed_tasks + 1
                     total_task_time := a.total_task_time + duration
                     updated_at := now }
          else
            { a with failed_tasks := a.failed_tasks + 1
                     total_task_time := a.total_task_time + duration
                     updated_at := now }
        else a)
      let tasks := db.tasks.map (fun t =>
        if t.id == task_id then applyTaskUpdates t status progress result (some duration) now
        else t)
      .ok { agents := agents, tasks := tasks }
  else
    .ok { db with tasks := db.tasks.map (fun t =>
      if t.id == task_id then applyTaskUpdates t status progress result none now
      else t) }

/-- `AgentTaskDatabase.get_agent_tasks`: all tasks of the agent in
`(priority, assigned_at)` order.  Only the multiset of rows matters to the
callers modelled here (counts and membership), so the model keeps row order
within the filter. -/
def get_agent_tasks (db : DB) (aid : String) : List AgentTask :=
  db.tasks.filter (fun t => t.agent_id == aid)

/-- The `AgentWorkload` dataclass. -/
structure AgentWorkload where
  agent_id : String
  agent_name : String
  agent_nickname : String
  current_tasks : List AgentTask
  max_concurrent : Int
  active_count : Int
  completed_count : Int
  failed_count : Int
  total_task_time : Int
  average_response_time : Rat
  status : String
  deriving DecidableEq

/-- `AgentTaskDatabase.get_agent_workload`; the `ValueError` raised for an
unknown agent id is modelled as `none`.  The derived status check
`(datetime.now() - heartbeat).seconds > 60` again uses the timedelta seconds
component. -/
def get_agent_workload (db : DB) (aid : String) (now : Int) :
    Option AgentWorkload :=
  match db.findAgent aid with
  | none => none
  | some a =>
    let tasks := get_agent_tasks db aid
    let active := tasks.filter (fun t => isActiveStatus t.status)
    let status :=
      if (active.length : Int) ≥ a.max_concurrent_tasks then "overloaded"
      else if 0 < active.length then "busy"
      else
        match a.last_heartbeat with
        | some hb => if pyDeltaSeconds now hb > 60 then "offline" else "available"
        | none => "available"
    some
      { agent_id := aid
        agent_name := a.name
        agent_nickname := if a.nickname == "" then a.name else a.nickname
        current_tasks := active
        max_concurrent := a.max_concurrent_tasks
        active_count := (active.length : Int)
        completed_count := a.completed_tasks
        failed_count := a.failed_tasks
        total_task_time := a.total_task_time
        average_response_time := a.average_response_time
        status := status }

/-- The static `task_mapping` table of `TaskDistributor.find_best_agent`,
with its `['team-coordinator']` default for unknown task types. -/
def task_mapping (task_type : String) : List String :=
  if task_type == "system_design" then ["cto-leader", "sa-architect", "softarch-lead"]
  else if task_type == "business_analysis" then ["ba-strategist", "uiux-researcher", "cto-leader"]
  else if task_type == "development" then
    ["leaddeveloper-tech", "seniordeveloper-code", "juniorddeveloper-learning"]
  else if task_type == "testing" then ["qa-quality", "seniordeveloper-code"]
  else if task_type == "infrastructure" then
    ["sysadmin-infrastructure", "devops-automation", "dba-data"]
  else if task_type == "performance" then
    ["dba-data", "devops-automation", "seniordeveloper-code"]
  else if task_type == "ui_ux" then ["uiux-researcher", "ba-strategist"]
  else if task_type == "general" then ["team-coordinator"]
  else ["team-coordinator"]

/-- The candidate loop of `TaskDistributor.find_best_agent`: `best`/`minw`
are the `best_agent` and `min_workload` loop variables (`minw = none` stands
for the initial `float('inf')`); an unknown candidate raises `ValueError`
inside `get_agent_workload` and is skipped by the `except ... continue`. -/
def find_best_loop (db : DB) (now : Int) :
    List String → Option String → Option Int → Option String
  | [], best, _ => best
  | aid :: rest, best, minw =>
    match get_agent_workload db aid now with
    | none => find_best_loop db now rest best minw
    | some w =>
      if w.active_count < w.max_concurrent then
        match minw with
        | none => find_best_loop db now rest (some aid) (some w.active_count)
        | some m =>
          if w.active_count < m then
            find_best_loop db now rest (some aid) (some w.active_count)
          else find_best_loop db now rest best minw
      else find_best_loop db now rest best minw

/-- `TaskDistributor.find_best_agent`. -/
def find_best_agent (db : DB) (task_type : String) (now : Int) : Option String :=
  find_best_loop db now (task_mapping task_type) none none

/-- The static duration table of `TaskDistributor.estimate_task_duration`,
defaulting to 300 seconds. -/
def estimate_task_duration (task_type : String) : Int :=
  if task_type == "system_design" then 600
  else if task_type == "business_analysis" then 300
  else if task_type == "development" then 900
  else if task_type == "testing" then 180
  else if task_type == "infrastructure" then 240
  else if task_type == "performance" then 360
  else if task_type == "ui_ux" then 420
  else if task_type == "general" then 60
  else 300

/-- `TaskDistributor.notify_agent`: just
`update_task_status(task_id, 'assigned')`. -/
def notify_agent (db : DB) (task_id : String) (now : Int) : Except String DB :=
  update_task_status db task_id "assigned" none none now

/-- `TaskDistributor.distribute_task`.  The generated `uuid4` is passed in as
`task_id`.  Python truthiness (`if assigned_to:`, `if not agent_id:`) makes an
empty string count as absent.  An explicitly named agent is used directly,
with no capacity or existence check; the task is inserted as `'pending'` and
then `notify_agent` immediately flips it to `'assigned'`. -/
def distribute_task (db : DB) (task_type : String) (title : String)
    (description : String) (priority : Int) (assigned_to : Option String)
    (task_id : String) (now : Int) : Except String (String × DB) :=
  let agent_id : Option String :=
    match assigned_to with
    | some a => if a == "" then find_best_agent db task_type now else some a
    | none => find_best_agent db task_type now
  match agent_id with
  | none => .error "No suitable agent found for this task"
  | some aid =>
    if aid == "" then .error "No suitable agent found for this task"
    else
      let task : AgentTask :=
        { id := task_id, agent_id := aid, title := title
          description := description, priority := priority, status := "pending"
          progress := 0, assigned_at := now, started_at := none
          completed_at := none
          estimated_duration := estimate_task_duration task_type
          actual_duration := none, dependencies := [], result := none
          error_message := none, created_by := "system", last_updated := now }
      let db1 := create_task db task now
      match notify_agent db1 task_id now with
      | .error e => .error e
      | .ok db2 => .ok (task_id, db2)

/-- A candidate is eligible for `find_best_agent` when its workload query
succeeds (known agent) and it is under capacity. -/
def eligibleB (db : DB) (now : Int) (aid : String) : Bool :=
  match get_agent_workload db aid now with
  | none => false
  | some w => decide (w.active_count < w.max_concurrent)

/-- The live active count a candidate shows to `find_best_agent`
(0 for an unknown agent, which is never eligible anyway). -/
def wac (db : DB) (now : Int) (aid : String) : Int :=
  match get_agent_workload db aid now with
  | none => 0
  | some w => w.active_count

/-! Concrete states used to evaluate the operations on specific inputs. -/

/-- A task row with the given key fields and quiet defaults elsewhere. -/
def exTask (tid aid : String) (prio : Int) (status : String) (assigned : Int) :
    AgentTask :=
  { id := tid, agent_id := aid, title := "task", description := ""
    priority := prio, status := status, progress := 0, assigned_at := assigned
    started_at := none, completed_at := none, estimated_duration := 300
    actual_duration := none, dependencies := [], result := none
    error_message := none, created_by := "system", last_updated := assigned }

/-- An agent row as `add_agent` would create it for a fresh id. -/
def exAgent (aid : String) : AgentRow :=
  { id := aid, name := aid, nickname := "", title := "", model := ""
    status := "available", max_concurrent_tasks := 3, active_tasks := 0
    completed_tasks := 0, failed_tasks := 0, total_task_time := 0
    average_response_time := 0, last_heartbeat := none, created_at := 0
    updated_at := 0 }

def cfgA : AgentConfig :=
  { id := "a1", name := some "Agent One", nickname := none, title := none
    model := none }

/-- C1 scenario: agent `a1` registered, then one task created (pending). -/
def db_C1 : DB :=
  create_task (add_agent emptyDB cfgA 0) (exTask "t1" "a1" 2 "pending" 1) 1

/-- C2 counterexample state: stored counter 5, no live active task, one
pending task. -/
def db_C2ce : DB :=
  { agents := [{ exAgent "a1" with active_tasks := 5 }]
    tasks := [exTask "t1" "a1" 2 "pending" 1] }

/-- C2 witness state: two pending tasks, the later-created one with the
lower (more urgent) priority number. -/
def db_C2w : DB :=
  { agents := [exAgent "a1"]
    tasks := [exTask "t2" "a1" 2 "pending" 5, exTask "t1" "a1" 1 "pending" 9] }

/-- C3 state: a working task assigned at time 0. -/
def db_C3 : DB :=
  { agents := [exAgent "a1"], tasks := [exTask "t1" "a1" 2 "working" 0] }

/-- C4 witness state: for task type `testing`, candidate `qa-quality` is at
capacity (3 working tasks, cap 3) and `seniordeveloper-code` is free. -/
def db_C4 : DB :=
  { agents := [exAgent "qa-quality", exAgent "seniordeveloper-code"]
    tasks := [exTask "w1" "qa-quality" 2 "working" 0,
              exTask "w2" "qa-quality" 2 "working" 0,
              exTask "w3" "qa-quality" 2 "working" 0] }

/-- C5 state: agent `qa-quality` at capacity (3 working tasks, cap 3), to
show the explicit-assignment path performs no capacity check. -/
def db_C5 : DB := db_C4

/-- C6 state: agent `a1` with nonzero derived counters and a heartbeat. -/
def db_C6 : DB :=
  { agents := [{ exAgent "a1" with
                 active_tasks := 2
                 completed_tasks := 5
                 failed_tasks := 1
                 total_task_time := 400
                 average_response_time := 7
                 last_heartbeat := some 9 }]
    tasks := [] }

/-- C7 state: a completed task. -/
def db_C7 : DB :=
  { agents := [exAgent "a1"], tasks := [exTask "t1" "a1" 2 "completed" 0] }

/-- C8 state: a working task assigned at time 0, owner has zeroed counters. -/
def db_C8 : DB :=
  { agents := [exAgent "a1"], tasks := [exTask "t1" "a1" 2 "working" 0] }

/-- C9 state: a working task with `started_at = 3` and `progress = 20`. -/
def db_C9 : DB :=
  { agents := [exAgent "a1"]
    tasks := [{ exTask "t1" "a1" 2 "working" 0 with
                started_at := some 3, progress := 20 }] }

/-- C7 witness state: one completed task and one pending task. -/
def db_C7w : DB :=
  { agents := [exAgent "a1"]
    tasks := [exTask "t1" "a1" 2 "completed" 0, exTask "t2" "a1" 2 "pending" 1] }

/-- The store produced by `get_next_task db_C7w "a1" 3`. -/
def db_C7w_after : DB :=
  { agents := [{ exAgent "a1" with active_tasks := 1, updated_at := 3 }]
    tasks := [exTask "t1" "a1" 2 "completed" 0,
              { exTask "t2" "a1" 2 "pending" 1 with
                status := "assigned", last_updated := 3 }] }

/-- The store produced by `get_next_task db_C2w "a1" 7`: the priority-1 task
`t1` is assigned and the counter resynchronised to the live count 1. -/
def db_C2w_after : DB :=
  { agents := [{ exAgent "a1" with active_tasks := 1, updated_at := 7 }]
    tasks := [exTask "t2" "a1" 2 "pending" 5,
              { exTask "t1" "a1" 1 "pending" 9 with
                status := "assigned", last_updated := 7 }] }

/-!  ## Lemmas about the ordering and selection helpers  -/

theorem pendingLt_irrefl (a : AgentTask) : pendingLt a a = false := by
  simp [pendingLt]

theorem pendingLt_asymm {a b : AgentTask} (h : pendingLt a b = true) :
    pendingLt b a = false := by
  revert h
  simp only [pendingLt, Bool.or_eq_true, Bool.and_eq_true, decide_eq_true_eq,
    Bool.or_eq_false_iff, Bool.and_eq_false_iff, decide_eq_false_iff_not]
  omega

theorem pendingLt_of_lt_of_nlt {v t u : AgentTask} (hvt : pendingLt v t = true)
    (hut : pendingLt u t = false) : pendingLt v u = true := by
  revert hvt hut
  simp only [pendingLt, Bool.or_eq_true, Bool.and_eq_true, decide_eq_true_eq,
    Bool.or_eq_false_iff, Bool.and_eq_false_iff, decide_eq_false_iff_not]
  omega

theorem selectMin_ne_none (t : AgentTask) (ts : List AgentTask) :
    selectMin (t :: ts) ≠ none := by
  simp only [selectMin]
  split
  · simp
  · split <;> simp

theorem selectMin_eq_none {l : List AgentTask} : selectMin l = none ↔ l = [] := by
  cases l with
  | nil => simp [selectMin]
  | cons t ts => simp [selectMin_ne_none t ts]

theorem selectMin_mem : ∀ {l : List AgentTask} {t : AgentTask},
    selectMin l = some t → t ∈ l := by
  intro l
  induction l with
  | nil => intro t h; cases h
  | cons x xs ih =>
    intro t h
    cases hsel : selectMin xs with
    | none =>
      simp only [selectMin, hsel] at h
      cases h
      exact List.mem_cons_self x xs
    | some u =>
      simp only [selectMin, hsel] at h
      split at h
      · cases h
        exact List.mem_cons_of_mem x (ih hsel)
      · cases h
        exact List.mem_cons_self x xs

theorem selectMin_not_lt : ∀ {l : List AgentTask} {t : AgentTask},
    selectMin l = some t → ∀ u ∈ l, pendingLt u t = false := by
  intro l
  induction l with
  | nil => intro t h; cases h
  | cons x xs ih =>
    intro t h u hu
    cases hsel : selectMin xs with
    | none =>
      simp only [selectMin, hsel] at h
      cases h
      rcases List.mem_cons.mp hu with rfl | hu'
      · exact pendingLt_irrefl u
      · rw [selectMin_eq_none.mp hsel] at hu'
        cases hu'
    | some v =>
      simp only [selectMin, hsel] at h
      split at h
      · rename_i hlt
        cases h
        rcases List.mem_cons.mp hu with rfl | hu'
        · exact pendingLt_asymm hlt
        · exact ih hsel u hu'
      · rename_i hlt
        cases h
        rcases List.mem_cons.mp hu with rfl | hu'
        · exact pendingLt_irrefl u
        · cases hut : pendingLt u x with
          | false => rfl
          | true =>
            have hvu := ih hsel u hu'
            have h1 := pendingLt_of_lt_of_nlt hut hlt
            rw [hvu] at h1
            exact Bool.noConfusion h1

/-!  ## Generic list lemmas for the row updates  -/

theorem find?_map_pres {α : Type} (g : α → α) (p : α → Bool)
    (hg : ∀ x, p (g x) = p x) :
    ∀ l : List α, (l.map g).find? p = (l.find? p).map g := by
  intro l
  induction l with
  | nil => rfl
  | cons x xs ih =>
    simp only [List.map_cons, List.find?]
    cases hpx : p x with
    | true => simp [hg x, hpx]
    | false => simp [hg x, hpx, ih]

theorem find?_id_of_mem_nodup :
    ∀ (l : List AgentTask) (t : AgentTask), (l.map AgentTask.id).Nodup →
      t ∈ l → l.find? (fun u => u.id == t.id) = some t := by
  intro l
  induction l with
  | nil => intro t _ hm; cases hm
  | cons x xs ih =>
    intro t hn hm
    rw [List.map_cons, List.nodup_cons] at hn
    rcases List.mem_cons.mp hm with rfl | hm'
    · simp [List.find?]
    · have hx : (x.id == t.id) = false := by
        simp only [beq_eq_false_iff_ne, ne_eq]
        intro h
        exact hn.1 (h ▸ List.mem_map_of_mem AgentTask.id hm')
      simp only [List.find?, hx]
      exact ih t hn.2 hm'

theorem countP_map_single_flip (p : AgentTask → Bool) (g : AgentTask → AgentTask)
    (tid : String) (hg : ∀ u, u.id ≠ tid → g u = u) :
    ∀ (l : List AgentTask) (t0 : AgentTask), t0 ∈ l → t0.id = tid →
      (l.map AgentTask.id).Nodup → p t0 = false → p (g t0) = true →
      (l.map g).countP p = l.countP p + 1 := by
  intro l
  induction l with
  | nil => intro t0 hm; cases hm
  | cons x xs ih =>
    intro t0 hm htid hn hp0 hp1
    rw [List.map_cons, List.nodup_cons] at hn
    rcases List.mem_cons.mp hm with rfl | hm'
    · have hxs : xs.map g = xs := by
        have hcg : ∀ u ∈ xs, g u = id u := by
          intro u hu
          apply hg
          intro hu_id
          exact hn.1 ((htid ▸ hu_id) ▸ List.mem_map_of_mem AgentTask.id hu)
        rw [List.map_congr_left hcg, List.map_id]
      rw [List.map_cons, hxs, List.countP_cons, List.countP_cons, hp0, hp1]
      simp
    · have hx : g x = x := by
        apply hg
        intro hx_id
        exact hn.1 ((hx_id.trans htid.symm) ▸ List.mem_map_of_mem AgentTask.id hm')
      rw [List.map_cons, hx, List.countP_cons, List.countP_cons,
        ih t0 hm' htid hn.2 hp0 hp1]
      omega

theorem liveActiveCount_eq_countP (db : DB) (aid : String) :
    liveActiveCount db aid =
      db.tasks.countP (fun t => t.agent_id == aid && isActiveStatus t.status) := by
  rw [liveActiveCount, ← List.countP_eq_length_filter]

theorem if_update_key_beq {α : Type} (key : α → String) (k : String)
    (f : α → α) (hf : ∀ x, key (f x) = key x) (x : α) :
    (key (if key x == k then f x else x) == k) = (key x == k) := by
  by_cases hbeq : key x = k <;> simp [hbeq, hf]

theorem find?_key_map_update {α : Type} (key : α → String) (k : String)
    (f : α → α) (hf : ∀ x, key (f x) = key x) (l : List α) :
    (l.map (fun x => if key x == k then f x else x)).find? (fun x => key x == k) =
      (l.find? (fun x => key x == k)).map (fun x => if key x == k then f x else x) :=
  find?_map_pres _ _ (if_update_key_beq key k f hf) l

theorem mem_map_update_of_ne {α : Type} (key : α → String) (k : String)
    (f : α → α) (l : List α) (u : α) (hu : u ∈ l) (hne : (key u == k) = false) :
    u ∈ l.map (fun x => if key x == k then f x else x) := by
  have hid : (if key u == k then f u else u) = u := by rw [hne]; simp
  exact hid ▸ List.mem_map_of_mem _ hu

theorem find?_append_of_none {α : Type} (p : α → Bool) :
    ∀ (l1 l2 : List α), (∀ x ∈ l1, p x = false) →
      (l1 ++ l2).find? p = l2.find? p := by
  intro l1
  induction l1 with
  | nil => intro l2 _; rfl
  | cons x xs ih =>
    intro l2 h
    rw [List.cons_append]
    simp only [List.find?, h x (List.mem_cons_self x xs)]
    exact ih l2 (fun y hy => h y (List.mem_cons_of_mem x hy))

theorem eq_of_mem_nodup_id (l : List AgentTask)
    (hn : (l.map AgentTask.id).Nodup) (t u : AgentTask)
    (ht : t ∈ l) (hu : u ∈ l) (hid : t.id = u.id) : t = u :=
  List.inj_on_of_nodup_map hn ht hu hid

/-!  ## Counterexamples and concrete evaluations  -/

/-- Claim C1, counterexample.  Starting from a store with one agent and one
freshly created pending task, the notify-after-create step
(`update_task_status(task_id, 'assigned')`) makes the task active but leaves
the stored `active_tasks` counter untouched: the counter reads 0 while the
live count of tasks in {assigned, working} is 1, so the claimed invariant
fails after this operation sequence. -/
theorem C1_counterexample :
    (notify_agent db_C1 "t1" 2).map (fun db2 =>
        ((db2.findAgent "a1").map AgentRow.active_tasks, liveActiveCount db2 "a1")) =
      Except.ok (some 0, 1) ∧ (0 : Int) ≠ ((1 : Nat) : Int) := by
  exact ⟨rfl, by decide⟩

/-- Claim C2, counterexample.  On a store whose stored counter (5) disagrees
with the live count (0), `get_next_task` does not increment the counter by
one: it writes `live count + 1 = 1`, not `5 + 1 = 6`. -/
theorem C2_counterexample :
    (db_C2ce.findAgent "a1").map AgentRow.active_tasks = some 5 ∧
    (get_next_task db_C2ce "a1" 7).map (fun r =>
        (r.2.findAgent "a1").map AgentRow.active_tasks) = Except.ok (some 1) ∧
    (1 : Int) ≠ 5 + 1 := by
  exact ⟨rfl, rfl, by decide⟩

/-- Claim C3, evaluation at the failing input.  A task assigned at time 0 and
completed at time 86520 (one day plus 120 seconds later) is recorded with
`actual_duration = 120`, because Python `timedelta.seconds` is the seconds
component (elapsed mod 86400), not the truncated total; the same wrong value
is added to the agent's `total_task_time`, and `completed_tasks` is
incremented. -/
theorem C3_duration_eval :
    (update_task_status db_C3 "t1" "completed" none none 86520).map (fun db =>
        ((db.findTask "t1").map AgentTask.actual_duration,
         (db.findAgent "a1").map (fun a => (a.total_task_time, a.completed_tasks)))) =
      Except.ok (some (some 120), some (120, 1)) ∧ (120 : Int) ≠ 86520 := by
  exact ⟨rfl, by decide⟩

/-- Claim C5, counterexample.  Creating a task with explicit
`assigned_to="qa-quality"` and priority 1 does store agent id and priority as
claimed, but once the create operation (`distribute_task`) returns, the
task's status is `"assigned"` — the notify-after-create step has already
moved it out of `"pending"` — so the claimed `status == "pending"` fails.
The chosen store even has `qa-quality` at capacity (3 working tasks, cap 3),
confirming that the explicit path performs no capacity check. -/
theorem C5_counterexample :
    (distribute_task db_C5 "testing" "T" "D" 1 (some "qa-quality") "t9" 50).map
        (fun r => (r.2.findTask "t9").map (fun t => (t.agent_id, t.status, t.priority))) =
      Except.ok (some ("qa-quality", "assigned", 1)) ∧
    "assigned" ≠ "pending" := by
  exact ⟨rfl, by decide⟩

/-- Claim C6, evaluation at the failing input.  Re-running `add_agent` for an
agent that already has `active_tasks = 2`, `completed_tasks = 5`,
`failed_tasks = 1`, `total_task_time = 400` and a heartbeat resets every one
of those derived fields to its column default (0 / NULL), because
`INSERT OR REPLACE` deletes the old row and inserts a fresh one. -/
theorem C6_reset_eval :
    ((add_agent db_C6 cfgA 10).findAgent "a1").map (fun a =>
        (a.active_tasks, a.completed_tasks, a.failed_tasks, a.total_task_time,
         a.last_heartbeat)) = some (0, 0, 0, 0, none) ∧
    (db_C6.findAgent "a1").map AgentRow.completed_tasks = some 5 ∧
    (5 : Int) ≠ 0 := by
  exact ⟨rfl, rfl, by decide⟩

/-- Claim C7, counterexample.  A task already in the terminal status
`"completed"` is moved back to `"working"` by a subsequent
`update_task_status` call: the code applies whatever status is requested,
with no terminal-state guard. -/
theorem C7_counterexample :
    (db_C7.findTask "t1").map AgentTask.status = some "completed" ∧
    (update_task_status db_C7 "t1" "working" (some 50) none 10).map (fun db =>
        (db.findTask "t1").map AgentTask.status) = Except.ok (some "working") ∧
    "working" ≠ "completed" := by
  exact ⟨rfl, rfl, by decide⟩

/-- Claim C8, counterexample.  Completing the same task twice (at times 100
and 200, `assigned_at = 0`) double-increments the owner's counters:
`completed_tasks` ends at 2 and `total_task_time` at 100 + 200 = 300,
whereas a single invocation leaves them at 1 and 100. -/
theorem C8_counterexample :
    ((update_task_status db_C8 "t1" "completed" none none 100).bind (fun db1 =>
        update_task_status db1 "t1" "completed" none none 200)).map (fun db2 =>
        (db2.findAgent "a1").map (fun a => (a.completed_tasks, a.total_task_time))) =
      Except.ok (some (2, 300)) ∧
    (update_task_status db_C8 "t1" "completed" none none 100).map (fun db1 =>
        (db1.findAgent "a1").map (fun a => (a.completed_tasks, a.total_task_time))) =
      Except.ok (some (1, 100)) ∧
    ((2 : Int), (300 : Int)) ≠ (1, 100) := by
  exact ⟨rfl, rfl, by decide⟩

/-- Claim C9, counterexample.  A progress update on a task already in
`"working"` (progress 60 at time 10) does not leave `started_at` unchanged:
the code re-executes `started_at = CURRENT_TIMESTAMP` on every `'working'`
update, so `started_at` moves from 3 to 10. -/
theorem C9_counterexample :
    (db_C9.findTask "t1").map AgentTask.started_at = some (some 3) ∧
    (update_task_status db_C9 "t1" "working" (some 60) none 10).map (fun db =>
        (db.findTask "t1").map (fun t => (t.progress, t.started_at, t.last_updated))) =
      Except.ok (some (60, some 10, 10)) ∧
    some (10 : Int) ≠ some (3 : Int) := by
  exact ⟨rfl, rfl, by decide⟩

/-!  ## Main claim theorems  -/

/-- Claim C10: for every agent id absent from the `agents` table,
`get_next_task` does not return none — it raises (the `max_concurrent`
lookup subscripts the missing `fetchone()` row); and an `ok none` outcome
only ever arises for a known agent that is at capacity or has no pending
task. -/
theorem C10_unknown_agent_raises (db : DB) (aid : String) (now : Int) :
    (db.findAgent aid = none →
      get_next_task db aid now = Except.error noneSubscriptErr) ∧
    (∀ db2, get_next_task db aid now = Except.ok (none, db2) →
      ∃ a, db.findAgent aid = some a ∧
        ((liveActiveCount db aid : Int) ≥ a.max_concurrent_tasks ∨
          pendingFor db aid = [])) := by
  constructor
  · intro h
    simp only [get_next_task, h]
  · intro db2 h
    simp only [get_next_task] at h
    cases hfa : db.findAgent aid with
    | none =>
      rw [hfa] at h
      cases h
    | some a =>
      simp only [hfa] at h
      refine ⟨a, rfl, ?_⟩
      by_cases hcap : (liveActiveCount db aid : Int) ≥ a.max_concurrent_tasks
      · exact Or.inl hcap
      · rw [if_neg hcap] at h
        cases hsel : selectMin (pendingFor db aid) with
        | none => exact Or.inr (selectMin_eq_none.mp hsel)
        | some row =>
          simp only [hsel] at h
          cases h

/-- Witness for C10 at a concrete input: the empty store has no agent
`"ghost"`, and `get_next_task` errors instead of returning none. -/
theorem C10_witness :
    get_next_task emptyDB "ghost" 0 = Except.error noneSubscriptErr :=
  (C10_unknown_agent_raises emptyDB "ghost" 0).1 rfl

/-- Claim C9 (amended): a progress update on a task already `"working"`
(`update_task_status` with status `"working"` and a progress value) changes
the task's progress, its last-updated timestamp, and also `started_at`,
which the code resets to the current time on every `'working'` update;
all other task fields, every other task row, and the `agents` table are
unchanged. -/
theorem C9_working_progress_update (db : DB) (tid : String) (p : Rat)
    (now : Int) (t : AgentTask) (ht : db.findTask tid = some t)
    (hst : t.status = "working") :
    ∃ db2, update_task_status db tid "working" (some p) none now = Except.ok db2 ∧
      db2.agents = db.agents ∧
      db2.findTask tid = some { t with progress := p, started_at := some now,
                                       last_updated := now } ∧
      (∀ u ∈ db.tasks, u.id ≠ tid → u ∈ db2.tasks) ∧
      db2.tasks.length = db.tasks.length := by
  refine ⟨_, rfl, rfl, ?_, ?_, by simp⟩
  · have hstep : (fun u => if u.id == tid then
        applyTaskUpdates u "working" (some p) none none now else u) =
        (fun u => if AgentTask.id u == tid then
          { u with status := "working", progress := p, started_at := some now,
                   last_updated := now } else u) := rfl
    simp only [DB.findTask]
    have ht2 : db.tasks.find? (fun u => AgentTask.id u == tid) = some t := ht
    rw [hstep, find?_key_map_update AgentTask.id tid
      (fun u => { u with status := "working", progress := p,
                         started_at := some now, last_updated := now })
      (fun x => rfl) db.tasks, ht2]
    have hbeq : t.id = tid := by simpa using List.find?_some ht2
    simp [hbeq, hst]
  · intro u hu hne
    show u ∈ db.tasks.map _
    have hbeq : (u.id == tid) = false := by simp [hne]
    have hstep : (fun x => if x.id == tid then
        applyTaskUpdates x "working" (some p) none none now else x) =
        (fun x => if AgentTask.id x == tid then
          applyTaskUpdates x "working" (some p) none none now else x) := rfl
    rw [hstep]
    exact mem_map_update_of_ne AgentTask.id tid _ db.tasks u hu hbeq

/-- Witness for C9 at a concrete input: the working task of `db_C9`
(`started_at = 3`, `progress = 20`) updated with progress 60 at time 10. -/
theorem C9_witness :
    ∃ db2, update_task_status db_C9 "t1" "working" (some 60) none 10 =
        Except.ok db2 ∧
      db2.agents = db_C9.agents ∧
      db2.findTask "t1" = some { exTask "t1" "a1" 2 "working" 0 with
                                 progress := 60, started_at := some 10,
                                 last_updated := 10 } ∧
      (∀ u ∈ db_C9.tasks, u.id ≠ "t1" → u ∈ db2.tasks) ∧
      db2.tasks.length = db_C9.tasks.length :=
  C9_working_progress_update db_C9 "t1" 60 10
    { exTask "t1" "a1" 2 "working" 0 with started_at := some 3, progress := 20 }
    rfl rfl

/-- Claim C8 (amended): the terminal transition is not idempotent for agent
counters — every `update_task_status(tid, 'completed')` call on an existing
task, whatever the task's current status, increments the owning agent's
`completed_tasks` by one and adds the freshly recomputed duration to
`total_task_time`; invoking it twice therefore double-increments (see the
counterexample). -/
theorem C8_every_terminal_call_increments (db : DB) (tid : String) (now : Int)
    (t : AgentTask) (a : AgentRow)
    (ht : db.findTask tid = some t) (ha : db.findAgent t.agent_id = some a) :
    ∃ db2, update_task_status db tid "completed" none none now = Except.ok db2 ∧
      db2.findAgent t.agent_id = some
        { a with completed_tasks := a.completed_tasks + 1
                 total_task_time := a.total_task_time + pyDeltaSeconds now t.assigned_at
                 updated_at := now } := by
  have hstep : update_task_status db tid "completed" none none now = Except.ok
      { agents := db.agents.map (fun ag =>
          if AgentRow.id ag == t.agent_id then
            { ag with completed_tasks := ag.completed_tasks + 1
                      total_task_time := ag.total_task_time + pyDeltaSeconds now t.assigned_at
                      updated_at := now }
          else ag)
        tasks := db.tasks.map (fun u =>
          if u.id == tid then
            applyTaskUpdates u "completed" none none
              (some (pyDeltaSeconds now t.assigned_at)) now
          else u) } := by
    unfold update_task_status
    rw [ht]
    rfl
  refine ⟨_, hstep, ?_⟩
  simp only [DB.findAgent]
  have ha2 : db.agents.find? (fun x => AgentRow.id x == t.agent_id) = some a := ha
  rw [find?_key_map_update AgentRow.id t.agent_id
    (fun ag => { ag with completed_tasks := ag.completed_tasks + 1
                         total_task_time := ag.total_task_time + pyDeltaSeconds now t.assigned_at
                         updated_at := now })
    (fun x => rfl) db.agents, ha2]
  have hbeq : a.id = t.agent_id := by simpa using List.find?_some ha2
  simp [hbeq]

/-- Witness for C8 at a concrete input: completing the working task of
`db_C8` at time 100 increments the owner's counters from 0 to 1 and adds
the duration 100. -/
theorem C8_witness :
    ∃ db2, update_task_status db_C8 "t1" "completed" none none 100 =
        Except.ok db2 ∧
      db2.findAgent "a1" = some
        { exAgent "a1" with completed_tasks := 1, total_task_time := 100
                            updated_at := 100 } :=
  C8_every_terminal_call_increments db_C8 "t1" 100
    (exTask "t1" "a1" 2 "working" 0) (exAgent "a1") rfl rfl

/-- Claim C7 (amended): `get_next_task` never moves a task out of a terminal
state — it only ever flips a pending task to `assigned`, so a completed or
failed task row survives any `get_next_task` call unchanged; however
`update_task_status` applies whatever status is requested with no guard, so
terminal states are not final under it (see the counterexample). -/
theorem C7_get_next_task_keeps_terminal (db : DB) (aid : String) (now : Int)
    (t : AgentTask) (hmem : t ∈ db.tasks)
    (hterm : t.status = "completed" ∨ t.status = "failed")
    (hnodup : (db.tasks.map AgentTask.id).Nodup)
    (res : Option String × DB)
    (hres : get_next_task db aid now = Except.ok res) :
    t ∈ res.2.tasks := by
  simp only [get_next_task] at hres
  cases hfa : db.findAgent aid with
  | none =>
    rw [hfa] at hres
    cases hres
  | some a =>
    simp only [hfa] at hres
    by_cases hcap : (liveActiveCount db aid : Int) ≥ a.max_concurrent_tasks
    · rw [if_pos hcap] at hres
      cases hres
      exact hmem
    · rw [if_neg hcap] at hres
      cases hsel : selectMin (pendingFor db aid) with
      | none =>
        simp only [hsel] at hres
        cases hres
        exact hmem
      | some row =>
        simp only [hsel] at hres
        cases hres
        have hrowpf : row ∈ db.tasks.filter
            (fun u => u.agent_id == aid && u.status == "pending") :=
          selectMin_mem hsel
        have hrowmem : row ∈ db.tasks := List.mem_of_mem_filter hrowpf
        have hrowp := List.of_mem_filter hrowpf
        have hpend : row.status = "pending" := by
          have h2 := (Bool.and_eq_true _ _ |>.mp hrowp).2
          simpa using h2
        have hne : (t.id == row.id) = false := by
          simp only [beq_eq_false_iff_ne, ne_eq]
          intro hid
          have heq := eq_of_mem_nodup_id db.tasks hnodup t row hmem hrowmem hid
          rw [heq, hpend] at hterm
          rcases hterm with h | h
          · exact absurd h (by decide)
          · exact absurd h (by decide)
        exact mem_map_update_of_ne AgentTask.id row.id
          (fun u => { u with status := "assigned", last_updated := now })
          db.tasks t hmem hne

/-- Witness for C7 at a concrete input: the completed task of `db_C7w`
is still present after `get_next_task` assigns the pending task `t2`. -/
theorem C7_witness :
    exTask "t1" "a1" 2 "completed" 0 ∈
      (((some "t2" : Option String), db_C7w_after)).2.tasks :=
  C7_get_next_task_keeps_terminal db_C7w "a1" 3
    (exTask "t1" "a1" 2 "completed" 0) (by decide) (Or.inl rfl) (by decide)
    (some "t2", db_C7w_after) rfl

/-- Claim C1 (amended): the stored `active_tasks` counter is maintained only
by `get_next_task`, which overwrites it with the live count plus one just as
it assigns a pending task; immediately after a successful `get_next_task`
the counter therefore equals the agent's live count of tasks in
{assigned, working}.  `create_task` and `update_task_status` (including the
notify-after-create `'assigned'` transition and the terminal transitions)
never write `active_tasks`, so the claimed equality does not survive those
operations (see the counterexample). -/
theorem C1_counter_resync_after_get_next (db : DB) (aid : String) (now : Int)
    (hnodup : (db.tasks.map AgentTask.id).Nodup)
    (tid : String) (db2 : DB)
    (h : get_next_task db aid now = Except.ok (some tid, db2)) :
    (db2.findAgent aid).map AgentRow.active_tasks =
      some ((liveActiveCount db2 aid : Nat) : Int) := by
  simp only [get_next_task] at h
  cases hfa : db.findAgent aid with
  | none =>
    rw [hfa] at h
    cases h
  | some a =>
    simp only [hfa] at h
    by_cases hcap : (liveActiveCount db aid : Int) ≥ a.max_concurrent_tasks
    · rw [if_pos hcap] at h
      cases h
    · rw [if_neg hcap] at h
      cases hsel : selectMin (pendingFor db aid) with
      | none =>
        simp only [hsel] at h
        cases h
      | some row =>
        simp only [hsel] at h
        simp only [Except.ok.injEq, Prod.mk.injEq, Option.some.injEq] at h
        obtain ⟨h1, h2⟩ := h
        subst h2
        have hrowpf : row ∈ db.tasks.filter
            (fun u => u.agent_id == aid && u.status == "pending") :=
          selectMin_mem hsel
        have hrowmem : row ∈ db.tasks := List.mem_of_mem_filter hrowpf
        have hrowp := List.of_mem_filter hrowpf
        have hagid : (row.agent_id == aid) = true :=
          (Bool.and_eq_true _ _ |>.mp hrowp).1
        have hpend : row.status = "pending" := by
          have h2 := (Bool.and_eq_true _ _ |>.mp hrowp).2
          simpa using h2
        have hlive : liveActiveCount
            { agents := db.agents.map (fun ag =>
                if ag.id == aid then
                  { ag with active_tasks := (liveActiveCount db aid : Int) + 1,
                            updated_at := now }
                else ag)
              tasks := db.tasks.map (fun u =>
                if u.id == row.id then
                  { u with status := "assigned", last_updated := now }
                else u) } aid = liveActiveCount db aid + 1 := by
          rw [liveActiveCount_eq_countP, liveActiveCount_eq_countP]
          exact countP_map_single_flip _ _ row.id
            (fun u hu => by rw [if_neg (by simp [hu])])
            db.tasks row hrowmem rfl hnodup
            (by simp only [isActiveStatus, hpend]; simp)
            (by
              have hself : (row.id == row.id) = true := by simp
              rw [if_pos hself]
              simp [isActiveStatus, hagid])
        rw [hlive]
        simp only [DB.findAgent]
        have ha2 : db.agents.find? (fun x => AgentRow.id x == aid) = some a := hfa
        rw [find?_key_map_update AgentRow.id aid
          (fun ag => { ag with active_tasks := (liveActiveCount db aid : Int) + 1,
                               updated_at := now })
          (fun x => rfl) db.agents, ha2]
        have hbeq : a.id = aid := by simpa using List.find?_some ha2
        simp only [Option.map_some', hbeq, beq_self_eq_true, if_true]
        norm_cast

/-- Witness for C1 at a concrete input: after `get_next_task db_C2w "a1" 7`
assigns task `t1`, the stored counter and the live count both read 1. -/
theorem C1_witness :
    (db_C2w_after.findAgent "a1").map AgentRow.active_tasks =
      some ((liveActiveCount db_C2w_after "a1" : Nat) : Int) :=
  C1_counter_resync_after_get_next db_C2w "a1" 7 (by decide) "t1"
    db_C2w_after rfl

/-- Claim C5 (amended): creating a task with an explicit nonempty
`assigned_to` and a fresh task id succeeds against any store — the explicit
agent id is used directly with no capacity or even existence check — and
once `distribute_task` returns, the stored task carries the requested agent
id and priority but status `"assigned"`: it is inserted as `"pending"` and
the notify-after-create step immediately flips it (see the
counterexample for the claimed `"pending"`). -/
theorem C5_explicit_assignment (db : DB) (task_type : String) (title : String)
    (description : String) (priority : Int) (a tid : String) (now : Int)
    (hne : (a == "") = false) (hfresh : ∀ u ∈ db.tasks, u.id ≠ tid) :
    ∃ db2, distribute_task db task_type title description priority (some a)
        tid now = Except.ok (tid, db2) ∧
      db2.findTask tid = some
        { id := tid, agent_id := a, title := title, description := description
          priority := priority, status := "assigned", progress := 0
          assigned_at := now, started_at := none, completed_at := none
          estimated_duration := estimate_task_duration task_type
          actual_duration := none, dependencies := [], result := none
          error_message := none, created_by := "system", last_updated := now } := by
  have hstep : distribute_task db task_type title description priority (some a)
      tid now = Except.ok (tid,
      { agents := db.agents.map (fun ag =>
          if ag.id == a then { ag with last_heartbeat := some now } else ag)
        tasks := List.map (fun u =>
            if u.id == tid then applyTaskUpdates u "assigned" none none none now
            else u)
          (db.tasks ++
            [({ id := tid, agent_id := a, title := title
                description := description, priority := priority
                status := "pending", progress := 0, assigned_at := now
                started_at := none, completed_at := none
                estimated_duration := estimate_task_duration task_type
                actual_duration := none, dependencies := [], result := none
                error_message := none, created_by := "system"
                last_updated := now } : AgentTask)]) }) := by
    simp only [distribute_task]
    rw [hne]
    show (if (a == "") = true then
        (Except.error "No suitable agent found for this task" :
          Except String (String × DB))
      else _) = _
    rw [hne]
    rfl
  refine ⟨_, hstep, ?_⟩
  have hgone : ∀ x ∈ db.tasks.map (fun u =>
      if u.id == tid then applyTaskUpdates u "assigned" none none none now
      else u), (AgentTask.id x == tid) = false := by
    intro x hx
    obtain ⟨u, hu, rfl⟩ := List.mem_map.mp hx
    have hu_id : (u.id == tid) = false := by simp [hfresh u hu]
    simp [hu_id]
  simp only [DB.findTask, List.map_append, List.map_cons, List.map_nil]
  rw [find?_append_of_none _ _ _ hgone]
  simp [List.find?, applyTaskUpdates]

/-- Witness for C5 at a concrete input: distributing to `"qa-quality"`
(priority 1, task id `t9`, time 50) on the at-capacity store `db_C5`
succeeds without any capacity check. -/
theorem C5_witness :
    ∃ db2, distribute_task db_C5 "testing" "T" "D" 1 (some "qa-quality")
        "t9" 50 = Except.ok ("t9", db2) ∧
      db2.findTask "t9" = some
        { id := "t9", agent_id := "qa-quality", title := "T", description := "D"
          priority := 1, status := "assigned", progress := 0
          assigned_at := 50, started_at := none, completed_at := none
          estimated_duration := estimate_task_duration "testing"
          actual_duration := none, dependencies := [], result := none
          error_message := none, created_by := "system", last_updated := 50 } :=
  C5_explicit_assignment db_C5 "testing" "T" "D" 1 "qa-quality" "t9" 50
    (by decide) (by decide)

/-- Claim C2 (amended): for an agent present in the store, `get_next_task`
returns none (without changing the store) when the live count of its tasks
in {assigned, working} is at least `max_concurrent_tasks`, and likewise when
it has no pending task; otherwise it picks a pending task of the agent that
no other pending task beats in (priority, assigned_at) order, marks it
`assigned`, and — rather than incrementing the stored counter by one —
overwrites the agent's `active_tasks` with the live count plus one (an
increment by one exactly when the stored counter was in sync; see the
counterexample). -/
theorem C2_get_next_task_behaviour (db : DB) (aid : String) (now : Int)
    (a : AgentRow) (ha : db.findAgent aid = some a)
    (hnodup : (db.tasks.map AgentTask.id).Nodup) :
    ((liveActiveCount db aid : Int) ≥ a.max_concurrent_tasks →
      get_next_task db aid now = Except.ok (none, db)) ∧
    ((liveActiveCount db aid : Int) < a.max_concurrent_tasks →
      pendingFor db aid = [] →
      get_next_task db aid now = Except.ok (none, db)) ∧
    ((liveActiveCount db aid : Int) < a.max_concurrent_tasks →
      pendingFor db aid ≠ [] →
      ∃ t db2, t ∈ pendingFor db aid ∧
        (∀ u ∈ pendingFor db aid, pendingLt u t = false) ∧
        get_next_task db aid now = Except.ok (some t.id, db2) ∧
        db2.findTask t.id = some { t with status := "assigned",
                                          last_updated := now } ∧
        db2.findAgent aid = some
          { a with active_tasks := (liveActiveCount db aid : Int) + 1,
                   updated_at := now } ∧
        (∀ u ∈ db.tasks, u.id ≠ t.id → u ∈ db2.tasks)) := by
  refine ⟨?_, ?_, ?_⟩
  · intro hcap
    simp only [get_next_task, ha]
    rw [if_pos hcap]
  · intro hcap hpend
    simp only [get_next_task, ha]
    rw [if_neg (not_le.mpr hcap),
      show selectMin (pendingFor db aid) = none from selectMin_eq_none.mpr hpend]
  · intro hcap hpend
    cases hsel : selectMin (pendingFor db aid) with
    | none => exact absurd (selectMin_eq_none.mp hsel) hpend
    | some row =>
      have hmemf : row ∈ pendingFor db aid := selectMin_mem hsel
      have hmemf2 : row ∈ db.tasks.filter
          (fun u => u.agent_id == aid && u.status == "pending") := hmemf
      have hrowmem : row ∈ db.tasks := List.mem_of_mem_filter hmemf2
      refine ⟨row,
        { agents := db.agents.map (fun ag =>
            if ag.id == aid then
              { ag with active_tasks := (liveActiveCount db aid : Int) + 1,
                        updated_at := now }
            else ag)
          tasks := db.tasks.map (fun u =>
            if u.id == row.id then
              { u with status := "assigned", last_updated := now }
            else u) },
        hmemf, selectMin_not_lt hsel, ?_, ?_, ?_, ?_⟩
      · simp only [get_next_task, ha]
        rw [if_neg (not_le.mpr hcap), hsel]
      · simp only [DB.findTask]
        have ht2 : db.tasks.find? (fun u => AgentTask.id u == row.id) =
            some row := find?_id_of_mem_nodup db.tasks row hnodup hrowmem
        rw [find?_key_map_update AgentTask.id row.id
          (fun u => { u with status := "assigned", last_updated := now })
          (fun x => rfl) db.tasks, ht2]
        simp
      · simp only [DB.findAgent]
        have ha2 : db.agents.find? (fun x => AgentRow.id x == aid) = some a := ha
        rw [find?_key_map_update AgentRow.id aid
          (fun ag => { ag with active_tasks := (liveActiveCount db aid : Int) + 1,
                               updated_at := now })
          (fun x => rfl) db.agents, ha2]
        have hbeq : a.id = aid := by simpa using List.find?_some ha2
        simp [hbeq]
      · intro u hu hne2
        have hbne : (u.id == row.id) = false := by simp [hne2]
        exact mem_map_update_of_ne AgentTask.id row.id
          (fun x => { x with status := "assigned", last_updated := now })
          db.tasks u hu hbne

/-- Witness for C2 at a concrete input: on `db_C2w` (counter in sync, two
pending tasks) the priority-1 task `t1` is selected, assigned, and the
counter is set to the live count plus one. -/
theorem C2_witness :
    ∃ t db2, t ∈ pendingFor db_C2w "a1" ∧
      (∀ u ∈ pendingFor db_C2w "a1", pendingLt u t = false) ∧
      get_next_task db_C2w "a1" 7 = Except.ok (some t.id, db2) ∧
      db2.findTask t.id = some { t with status := "assigned",
                                        last_updated := 7 } ∧
      db2.findAgent "a1" = some
        { exAgent "a1" with active_tasks := 1, updated_at := 7 } ∧
      (∀ u ∈ db_C2w.tasks, u.id ≠ t.id → u ∈ db2.tasks) :=
  (C2_get_next_task_behaviour db_C2w "a1" 7 (exAgent "a1") rfl
    (by decide)).2.2 (by decide) (by decide)

theorem find_best_loop_some_isSome (db : DB) (now : Int) :
    ∀ (l : List String) (b : String) (m : Int), ∃ c,
      find_best_loop db now l (some b) (some m) = some c := by
  intro l
  induction l with
  | nil => intro b m; exact ⟨b, rfl⟩
  | cons x xs ih =>
    intro b m
    cases hw : get_agent_workload db x now with
    | none =>
      simp only [find_best_loop, hw]
      exact ih b m
    | some w =>
      simp only [find_best_loop, hw]
      by_cases hel : w.active_count < w.max_concurrent
      · rw [if_pos hel]
        by_cases hlt : w.active_count < m
        · rw [if_pos hlt]
          exact ih x w.active_count
        · rw [if_neg hlt]
          exact ih b m
      · rw [if_neg hel]
        exact ih b m

theorem find_best_loop_none_iff (db : DB) (now : Int) :
    ∀ (l : List String),
      find_best_loop db now l none none = none ↔
        ∀ c ∈ l, eligibleB db now c = false := by
  intro l
  induction l with
  | nil => simp [find_best_loop]
  | cons x xs ih =>
    cases hw : get_agent_workload db x now with
    | none =>
      simp only [find_best_loop, hw]
      rw [ih]
      constructor
      · intro h c hc
        rcases List.mem_cons.mp hc with rfl | hc'
        · simp [eligibleB, hw]
        · exact h c hc'
      · intro h c hc
        exact h c (List.mem_cons_of_mem x hc)
    | some w =>
      simp only [find_best_loop, hw]
      by_cases hel : w.active_count < w.max_concurrent
      · rw [if_pos hel]
        obtain ⟨c, hc⟩ := find_best_loop_some_isSome db now xs x w.active_count
        rw [hc]
        constructor
        · intro h
          cases h
        · intro h
          have hx := h x (List.mem_cons_self x xs)
          rw [show eligibleB db now x = true by simp [eligibleB, hw, hel]] at hx
          cases hx
      · rw [if_neg hel]
        rw [ih]
        constructor
        · intro h c hc
          rcases List.mem_cons.mp hc with rfl | hc'
          · simp [eligibleB, hw, hel]
          · exact h c hc'
        · intro h c hc
          exact h c (List.mem_cons_of_mem x hc)

theorem find_best_loop_acc_spec (db : DB) (now : Int) :
    ∀ (l : List String) (b : String) (m : Int) (res : String),
      find_best_loop db now l (some b) (some m) = some res →
      (res = b ∧ ∀ c ∈ l, eligibleB db now c = true → m ≤ wac db now c) ∨
      (eligibleB db now res = true ∧ wac db now res < m ∧
        ∃ l1 l2, l = l1 ++ res :: l2 ∧
          (∀ c ∈ l1, eligibleB db now c = true →
            wac db now res < wac db now c) ∧
          (∀ c ∈ l2, eligibleB db now c = true →
            wac db now res ≤ wac db now c)) := by
  intro l
  induction l with
  | nil =>
    intro b m res h
    simp only [find_best_loop] at h
    cases h
    exact Or.inl ⟨rfl, by intro c hc; cases hc⟩
  | cons x xs ih =>
    intro b m res h
    cases hw : get_agent_workload db x now with
    | none =>
      simp only [find_best_loop, hw] at h
      have helx : eligibleB db now x = false := by simp [eligibleB, hw]
      rcases ih b m res h with ⟨rfl, hall⟩ | ⟨hel2, hlt2, l1, l2, hsplit, hbefore, hafter⟩
      · refine Or.inl ⟨rfl, ?_⟩
        intro c hc hce
        rcases List.mem_cons.mp hc with rfl | hc'
        · rw [helx] at hce; cases hce
        · exact hall c hc' hce
      · refine Or.inr ⟨hel2, hlt2, x :: l1, l2,
          by rw [hsplit, List.cons_append], ?_, hafter⟩
        intro c hc hce
        rcases List.mem_cons.mp hc with rfl | hc'
        · rw [helx] at hce; cases hce
        · exact hbefore c hc' hce
    | some w =>
      have hwac : wac db now x = w.active_count := by simp [wac, hw]
      by_cases hel : w.active_count < w.max_concurrent
      · have helx : eligibleB db now x = true := by simp [eligibleB, hw, hel]
        simp only [find_best_loop, hw] at h
        rw [if_pos hel] at h
        by_cases hlt : w.active_count < m
        · rw [if_pos hlt] at h
          rcases ih x w.active_count res h with
            ⟨rfl, hall⟩ | ⟨hel2, hlt2, l1, l2, hsplit, hbefore, hafter⟩
          · refine Or.inr ⟨helx, ?_, [], xs, rfl, ?_, ?_⟩
            · rw [hwac]
              exact hlt
            · intro c hc
              cases hc
            · intro c hc hce
              rw [hwac]
              exact hall c hc hce
          · refine Or.inr ⟨hel2, lt_trans hlt2 hlt, x :: l1, l2,
              by rw [hsplit, List.cons_append], ?_, hafter⟩
            intro c hc hce
            rcases List.mem_cons.mp hc with rfl | hc'
            · rw [hwac]; exact hlt2
            · exact hbefore c hc' hce
        · rw [if_neg hlt] at h
          have hm_le : m ≤ w.active_count := not_lt.mp hlt
          rcases ih b m res h with
            ⟨rfl, hall⟩ | ⟨hel2, hlt2, l1, l2, hsplit, hbefore, hafter⟩
          · refine Or.inl ⟨rfl, ?_⟩
            intro c hc hce
            rcases List.mem_cons.mp hc with rfl | hc'
            · rw [hwac]; exact hm_le
            · exact hall c hc' hce
          · refine Or.inr ⟨hel2, hlt2, x :: l1, l2,
              by rw [hsplit, List.cons_append], ?_, hafter⟩
            intro c hc hce
            rcases List.mem_cons.mp hc with rfl | hc'
            · rw [hwac]; exact lt_of_lt_of_le hlt2 hm_le
            · exact hbefore c hc' hce
      · have helx : eligibleB db now x = false := by simp [eligibleB, hw, hel]
        simp only [find_best_loop, hw] at h
        rw [if_neg hel] at h
        rcases ih b m res h with
          ⟨rfl, hall⟩ | ⟨hel2, hlt2, l1, l2, hsplit, hbefore, hafter⟩
        · refine Or.inl ⟨rfl, ?_⟩
          intro c hc hce
          rcases List.mem_cons.mp hc with rfl | hc'
          · rw [helx] at hce; cases hce
          · exact hall c hc' hce
        · refine Or.inr ⟨hel2, hlt2, x :: l1, l2,
            by rw [hsplit, List.cons_append], ?_, hafter⟩
          intro c hc hce
          rcases List.mem_cons.mp hc with rfl | hc'
          · rw [helx] at hce; cases hce
          · exact hbefore c hc' hce

theorem find_best_loop_start_spec (db : DB) (now : Int) :
    ∀ (l : List String) (res : String),
      find_best_loop db now l none none = some res →
      eligibleB db now res = true ∧
      ∃ l1 l2, l = l1 ++ res :: l2 ∧
        (∀ c ∈ l1, eligibleB db now c = true →
          wac db now res < wac db now c) ∧
        (∀ c ∈ l2, eligibleB db now c = true →
          wac db now res ≤ wac db now c) := by
  intro l
  induction l with
  | nil =>
    intro res h
    simp only [find_best_loop] at h
    cases h
  | cons x xs ih =>
    intro res h
    cases hw : get_agent_workload db x now with
    | none =>
      simp only [find_best_loop, hw] at h
      have helx : eligibleB db now x = false := by simp [eligibleB, hw]
      obtain ⟨hel2, l1, l2, hsplit, hbefore, hafter⟩ := ih res h
      refine ⟨hel2, x :: l1, l2, by rw [hsplit, List.cons_append], ?_, hafter⟩
      intro c hc hce
      rcases List.mem_cons.mp hc with rfl | hc'
      · rw [helx] at hce; cases hce
      · exact hbefore c hc' hce
    | some w =>
      have hwac : wac db now x = w.active_count := by simp [wac, hw]
      by_cases hel : w.active_count < w.max_concurrent
      · have helx : eligibleB db now x = true := by simp [eligibleB, hw, hel]
        simp only [find_best_loop, hw] at h
        rw [if_pos hel] at h
        rcases find_best_loop_acc_spec db now xs x w.active_count res h with
          ⟨rfl, hall⟩ | ⟨hel2, hlt2, l1, l2, hsplit, hbefore, hafter⟩
        · refine ⟨helx, [], xs, rfl, ?_, ?_⟩
          · intro c hc
            cases hc
          · intro c hc hce
            rw [hwac]
            exact hall c hc hce
        · refine ⟨hel2, x :: l1, l2, by rw [hsplit, List.cons_append], ?_, hafter⟩
          intro c hc hce
          rcases List.mem_cons.mp hc with rfl | hc'
          · rw [hwac]; exact hlt2
          · exact hbefore c hc' hce
      · have helx : eligibleB db now x = false := by simp [eligibleB, hw, hel]
        simp only [find_best_loop, hw] at h
        rw [if_neg hel] at h
        obtain ⟨hel2, l1, l2, hsplit, hbefore, hafter⟩ := ih res h
        refine ⟨hel2, x :: l1, l2, by rw [hsplit, List.cons_append], ?_, hafter⟩
        intro c hc hce
        rcases List.mem_cons.mp hc with rfl | hc'
        · rw [helx] at hce; cases hce
        · exact hbefore c hc' hce

/-- Claim C4: for every task type, `find_best_agent` considers the mapped
candidate list; an unknown agent id is never eligible (it is skipped, not an
error); the result is none exactly when every candidate is unknown or at
capacity, and in that case `distribute_task` without an explicit assignee
fails with the no-suitable-agent error instead of creating a task; a
returned candidate is eligible (known and under capacity), has the fewest
live active tasks among eligible candidates, and is the first such minimum
in candidate-list order (every eligible candidate before it has strictly
more active tasks, since the comparison is strict). -/
theorem C4_find_best_agent_spec (db : DB) (task_type : String) (now : Int) :
    (∀ aid, db.findAgent aid = none → eligibleB db now aid = false) ∧
    (find_best_agent db task_type now = none ↔
      ∀ c ∈ task_mapping task_type, eligibleB db now c = false) ∧
    (∀ res, find_best_agent db task_type now = some res →
      eligibleB db now res = true ∧
      (∀ c ∈ task_mapping task_type, eligibleB db now c = true →
        wac db now res ≤ wac db now c) ∧
      ∃ l1 l2, task_mapping task_type = l1 ++ res :: l2 ∧
        (∀ c ∈ l1, eligibleB db now c = true →
          wac db now res < wac db now c) ∧
        (∀ c ∈ l2, eligibleB db now c = true →
          wac db now res ≤ wac db now c)) ∧
    (find_best_agent db task_type now = none →
      ∀ title description priority tid,
        distribute_task db task_type title description priority none tid now =
          Except.error "No suitable agent found for this task") := by
  refine ⟨?_, ?_, ?_, ?_⟩
  · intro aid h
    simp [eligibleB, get_agent_workload, h]
  · exact find_best_loop_none_iff db now (task_mapping task_type)
  · intro res h
    obtain ⟨hel, l1, l2, hsplit, hbefore, hafter⟩ :=
      find_best_loop_start_spec db now (task_mapping task_type) res h
    refine ⟨hel, ?_, l1, l2, hsplit, hbefore, hafter⟩
    intro c hc hce
    rw [hsplit] at hc
    rcases List.mem_append.mp hc with hc1 | hc2
    · exact le_of_lt (hbefore c hc1 hce)
    · rcases List.mem_cons.mp hc2 with rfl | hc2'
      · exact le_refl _
      · exact hafter c hc2' hce
  · intro h title description priority tid
    simp only [distribute_task, h]

/-- Witness for C4 at a concrete input: for task type `testing` on `db_C4`
(`qa-quality` at capacity, `seniordeveloper-code` free) the policy returns
`seniordeveloper-code`, and the theorem instantiates to its minimality and
first-minimum decomposition of the candidate list. -/
theorem C4_witness :
    eligibleB db_C4 0 "seniordeveloper-code" = true ∧
    (∀ c ∈ task_mapping "testing", eligibleB db_C4 0 c = true →
      wac db_C4 0 "seniordeveloper-code" ≤ wac db_C4 0 c) ∧
    ∃ l1 l2, task_mapping "testing" = l1 ++ "seniordeveloper-code" :: l2 ∧
      (∀ c ∈ l1, eligibleB db_C4 0 c = true →
        wac db_C4 0 "seniordeveloper-code" < wac db_C4 0 c) ∧
      (∀ c ∈ l2, eligibleB db_C4 0 c = true →
        wac db_C4 0 "seniordeveloper-code" ≤ wac db_C4 0 c) :=
  (C4_find_best_agent_spec db_C4 "testing" 0).2.2.1 "seniordeveloper-code" rfl

end AIDashboard
